import Mathlib

/-!
Verification development for the lodestone HTML-extraction library.

The Rust source is shallowly embedded: the `select` crate's document tree
becomes the inductive `HtmlNode` (node search by class/tag, text
concatenation, attribute lookup), and every extractor
(`Profile::parse_server`, `Profile::parse_char_info`,
`Profile::parse_char_param`, `Profile::parse_classes`,
`ServerStatus::parse_from`, `FreeCompanyLeaderboardQuery::parse_node` /
`parse_data`, `SearchBuilder::parse_profile`) is translated function by
function.  Rust strings are modelled through `String` / `List Char`;
the library only ever decomposes ASCII markers, so byte positions and
char positions coincide where the code slices by byte index (noted at the
one slicing site).  Rust's `str::to_uppercase` is modelled by the
ASCII-correct `Char.toUpper` map.  Fallible Rust code returns `Except`;
the one function that can actually panic is modelled with an explicit
`RResult.crashed` outcome.
-/

deriving instance DecidableEq for Except

/-! ### Rust string primitives -/

/-- Rust `str::to_uppercase`, restricted to its ASCII behaviour
(`Char.toUpper` uppercases exactly the range a-z). -/
def toUpperStr (s : String) : String := ⟨s.data.map Char.toUpper⟩

/-- Rust `str::trim`: drop leading and trailing whitespace. -/
def rustTrim (s : String) : String :=
  ⟨((s.data.dropWhile Char.isWhitespace).reverse.dropWhile Char.isWhitespace).reverse⟩

/-- Rust `str::split(sep : char)`: split at every occurrence of `sep`,
keeping empty pieces; the result is never empty. -/
def splitCharList (sep : Char) : List Char → List (List Char)
  | [] => [[]]
  | c :: rest =>
    if c = sep then [] :: splitCharList sep rest
    else
      match splitCharList sep rest with
      | t :: ts => (c :: t) :: ts
      | [] => [[c]]

/-- `String` wrapper for `splitCharList`. -/
def rustSplitChar (s : String) (sep : Char) : List String :=
  (splitCharList sep s.data).map (fun l => ⟨l⟩)

/-- Rust `str::split` at the three-character separator `" / "` (used for
`"current / max"` experience pairs and `"Paladin / Gladiator"` names). -/
def splitSlashSep : List Char → List (List Char)
  | ' ' :: '/' :: ' ' :: rest => [] :: splitSlashSep rest
  | c :: rest =>
    match splitSlashSep rest with
    | t :: ts => (c :: t) :: ts
    | [] => [[c]]
  | [] => [[]]

/-- `String` wrapper for `splitSlashSep`. -/
def rustSplitSlash (s : String) : List String :=
  (splitSlashSep s.data).map (fun l => ⟨l⟩)

/-- Rust `str::split` on a whitespace predicate followed by dropping the
empty pieces: `str::split_whitespace`. -/
def splitWsList (l : List Char) : List (List Char) :=
  ((splitCharList ' ' l).flatMap (splitCharList '\t')
    |>.flatMap (splitCharList '\n') |>.flatMap (splitCharList '\r')).filter (· ≠ [])

/-- `String` wrapper for `splitWsList`. -/
def rustSplitWhitespace (s : String) : List String :=
  (splitWsList s.data).map (fun l => ⟨l⟩)

/-- Rust `str::replace(from : char, to)` where `to` is a single
character: a character map (covers `replace(' ', "_")` and
`replace('_', " ")` in `parse_char_info`). -/
def replaceChar (a b : Char) (s : String) : String :=
  ⟨s.data.map (fun c => if c = a then b else c)⟩

/-- Rust `str::replace("<br>", " ")`, specialised: scan left to right,
replace each non-overlapping occurrence of `<br>` by one space. -/
def replaceBrList : List Char → List Char
  | '<' :: 'b' :: 'r' :: '>' :: rest => ' ' :: replaceBrList rest
  | c :: rest => c :: replaceBrList rest
  | [] => []

/-- `String` wrapper for `replaceBrList`. -/
def replaceBr (s : String) : String := ⟨replaceBrList s.data⟩

/-- Rust `str::replace("_/_", " ")`, specialised the same way. -/
def replaceUscoreSlashList : List Char → List Char
  | '_' :: '/' :: '_' :: rest => ' ' :: replaceUscoreSlashList rest
  | c :: rest => c :: replaceUscoreSlashList rest
  | [] => []

/-- `String` wrapper for `replaceUscoreSlashList`. -/
def replaceUscoreSlash (s : String) : String := ⟨replaceUscoreSlashList s.data⟩

/-- Rust `str::replace(',', "")`: drop every comma. -/
def stripCommas (s : String) : String := ⟨s.data.filter (· ≠ ',')⟩

/-- Digit-run value; `none` unless the list is a nonempty run of ASCII
digits. -/
def parseDigits (cs : List Char) : Option Nat :=
  if cs ≠ [] ∧ cs.all Char.isDigit then
    some (cs.foldl (fun a c => a * 10 + (c.toNat - 48)) 0)
  else none

/-- Rust `str::parse::<u32>()`: optional leading `+`, a nonempty digit
run, value below `2^32`. -/
def rustParseU32 (s : String) : Option Nat :=
  let cs := match s.data with
    | '+' :: r => r
    | r => r
  match parseDigits cs with
  | some v => if v < 2 ^ 32 then some v else none
  | none => none

/-- Rust `str::parse::<i32>()`: optional sign, digit run, i32 range. -/
def rustParseI32 (s : String) : Option Int :=
  match s.data with
  | '-' :: r => (parseDigits r).bind (fun v => if v ≤ 2 ^ 31 then some (-(v : Int)) else none)
  | '+' :: r => (parseDigits r).bind (fun v => if v < 2 ^ 31 then some ((v : Int)) else none)
  | r => (parseDigits r).bind (fun v => if v < 2 ^ 31 then some ((v : Int)) else none)

/-- Rust `str::parse::<i64>()`: optional sign, digit run, i64 range. -/
def rustParseI64 (s : String) : Option Int :=
  match s.data with
  | '-' :: r => (parseDigits r).bind (fun v => if v ≤ 2 ^ 63 then some (-(v : Int)) else none)
  | '+' :: r => (parseDigits r).bind (fun v => if v < 2 ^ 63 then some ((v : Int)) else none)
  | r => (parseDigits r).bind (fun v => if v < 2 ^ 63 then some ((v : Int)) else none)

/-- Release-mode `usize` subtraction: wraps modulo `2^64` (the source
computes `datacenter.len() - 1` with no underflow guard). -/
def usizeSub (a b : Nat) : Nat := (a + 2 ^ 64 - b) % 2 ^ 64

/-- Rust byte slicing `s[start..stop]`, for ASCII content (one byte per
char): `none` models the panic on `start > stop` or `stop > len`. -/
def strSlice (s : String) (start stop : Nat) : Option String :=
  if start ≤ stop ∧ stop ≤ s.data.length then
    some ⟨(s.data.drop start).take (stop - start)⟩
  else none

/-! ### The document tree (the `select` crate collaborator)

`HtmlNode` models a parsed hypertext node: either a text node or an
element carrying its tag name, class list, other attributes and children.
A document is the list of root nodes.  `Document::find`/`Node::find`
iterate nodes in depth-first document order (a node's `find` yields its
proper descendants). -/

inductive HtmlNode where
  | textNode (s : String)
  | elem (tag : String) (classes : List String) (attrs : List (String × String))
      (children : List HtmlNode)

/-- The predicates the source uses: `Class(c)`, `Name(t)`, `Element`. -/
inductive NodePred where
  | pClass (c : String)
  | pName (t : String)
  | pElement

/-- Predicate matching, as in `select::predicate`. -/
def NodePred.matches : NodePred → HtmlNode → Bool
  | .pClass c, .elem _ classes _ _ => classes.contains c
  | .pName t, .elem tag _ _ _ => tag == t
  | .pElement, .elem _ _ _ _ => true
  | _, .textNode _ => false

mutual

/-- Proper descendants of a node, in depth-first order. -/
def HtmlNode.descendants : HtmlNode → List HtmlNode
  | .textNode _ => []
  | .elem _ _ _ cs => HtmlNode.forestNodes cs

/-- All nodes of a forest (each root followed by its descendants). -/
def HtmlNode.forestNodes : List HtmlNode → List HtmlNode
  | [] => []
  | n :: ns => n :: (HtmlNode.descendants n ++ HtmlNode.forestNodes ns)

end

mutual

/-- `Node::text()`: concatenation of all descendant text. -/
def HtmlNode.nodeText : HtmlNode → String
  | .textNode s => s
  | .elem _ _ _ cs => HtmlNode.forestText cs

/-- Text of a forest. -/
def HtmlNode.forestText : List HtmlNode → String
  | [] => ""
  | n :: ns => HtmlNode.nodeText n ++ HtmlNode.forestText ns

end

/-- `Node::attr(name)`. -/
def HtmlNode.attr : HtmlNode → String → Option String
  | .textNode _, _ => none
  | .elem _ _ attrs _, k => (attrs.find? (fun p => p.1 == k)).map (·.2)

/-- `Node::children()`. -/
def HtmlNode.childNodes : HtmlNode → List HtmlNode
  | .textNode _ => []
  | .elem _ _ _ cs => cs

/-- `Node::find(p)`: matching proper descendants, in document order. -/
def nodeFind (n : HtmlNode) (p : NodePred) : List HtmlNode :=
  n.descendants.filter p.matches

/-- `Document::find(p)`: all matching nodes of the document. -/
def docFind (doc : List HtmlNode) (p : NodePred) : List HtmlNode :=
  (HtmlNode.forestNodes doc).filter p.matches

/-- Tags the HTML serializer emits without a closing tag. -/
def voidTags : List String := ["br", "hr", "img", "input", "meta", "link"]

mutual

/-- Serialization of one node, for `Node::inner_html()`. -/
def HtmlNode.serialize : HtmlNode → String
  | .textNode s => s
  | .elem tag classes attrs cs =>
    "<" ++ tag
      ++ (if classes = [] then "" else " class=\"" ++ String.intercalate " " classes ++ "\"")
      ++ String.join (attrs.map (fun p => " " ++ p.1 ++ "=\"" ++ p.2 ++ "\""))
      ++ ">"
      ++ (if tag ∈ voidTags then "" else HtmlNode.serializeForest cs ++ "</" ++ tag ++ ">")

/-- Serialization of a forest. -/
def HtmlNode.serializeForest : List HtmlNode → String
  | [] => ""
  | n :: ns => HtmlNode.serialize n ++ HtmlNode.serializeForest ns

end

/-- `Node::inner_html()`: serialization of the children. -/
def HtmlNode.innerHtml (n : HtmlNode) : String :=
  HtmlNode.serializeForest n.childNodes

/-! ### Catalog types (`src/model/*.rs`) -/

/-- `model/server.rs`: the `Server` enumeration. -/
inductive Server where
  | Aegis | Atomos | Carbuncle | Garuda | Gungnir | Kujata | Ramuh | Tonberry | Typhon | Unicorn
  | Alexander | Bahamut | Durandal | Fenrir | Ifrit | Ridill | Tiamat | Ultima | Valefor | Yojimbo | Zeromus
  | Anima | Asura | Belias | Chocobo | Hades | Ixion | Mandragora | Masamune | Pandaemonium | Shinryu | Titan
  | Adamantoise | Cactuar | Faerie | Gilgamesh | Jenova | Midgardsormr | Sargatanas | Siren
  | Behemoth | Excalibur | Exodus | Famfrit | Hyperion | Lamia | Leviathan | Ultros
  | Balmung | Brynhildr | Coeurl | Diabolos | Goblin | Malboro | Mateus | Zalera
  | Cerberus | Louisoix | Moogle | Omega | Ragnarok | Spriggan
  | Lich | Odin | Phoenix | Shiva | Twintania | Zodiark
  | Bismarck | Ravana | Sephirot | Sophia | Zurvan
deriving DecidableEq

/-- `model/datacenter.rs`: the `Datacenter` enumeration. -/
inductive Datacenter where
  | Aether | Chaos | Crystal | Dynamis | Elemental | Gaia | Light | Mana | Primal | Materia | Meteor
deriving DecidableEq

/-- `model/server.rs`: `ServerCategory`. -/
inductive ServerCategory where
  | Standard | Preferred | Congested | New
deriving DecidableEq

/-- `model/server.rs`: `CharacterAvailability`. -/
inductive CharacterAvailability where
  | CharactersAvailable | CharactersUnavailable
deriving DecidableEq

/-- `model/server.rs`: `ServerStatus`. -/
inductive ServerStatus where
  | Online (cat : ServerCategory) (avail : CharacterAvailability)
  | PartialMaintenance (cat : ServerCategory) (avail : CharacterAvailability)
  | Maintenance
deriving DecidableEq

/-- `model/server.rs`: `ServerParseError` (also reused by `Server::from_str`
and the standings extractor). -/
inductive ServerParseError where
  | NodeMissing (node : String)
  | CategoryParseError (actual : String)
  | DatacenterParseError (s : String)
deriving DecidableEq

/-- `model/race.rs`: `Race`. -/
inductive Race where
  | Aura | Elezen | Hyur | Lalafell | Miqote | Roegadyn
deriving DecidableEq

/-- `model/gender.rs`: `Gender`. -/
inductive Gender where
  | Female | Male
deriving DecidableEq

/-- `model/gc.rs`: `GrandCompany`. -/
inductive GrandCompany where
  | Maelstrom | TwinAdder | ImmortalFlames | Unaffiliated
deriving DecidableEq

/-- Modelled from the spec: the clan catalog.  `src/model/clan.rs` is
declared in `model.rs` but absent from the source tree; per spec section 4.1
a catalog parses case-insensitively on trimmed text and unknown input is a
typed parse error carrying the offending string. -/
inductive Clan where
  | Midlander | Highlander | Wildwood | Duskwight | Plainsfolk | Dunesfolk
  | SeekerOfTheSun | KeeperOfTheMoon | SeaWolf | Hellsguard | Raen | Xaela
deriving DecidableEq

/-- Modelled from the spec: the class/job catalog (`src/model/class.rs` is
absent from the source tree).  The spec names the nine advanced/base pairs;
the catalog parses case-insensitively on trimmed text. -/
inductive ClassType where
  | Paladin | Gladiator | Warrior | Marauder | WhiteMage | Conjurer
  | Monk | Pugilist | Dragoon | Lancer | Ninja | Rogue
  | Bard | Archer | BlackMage | Thaumaturge | Summoner | Arcanist
deriving DecidableEq, Fintype

/-- Modelled from the spec: `ClassInfo` (`src/model/class.rs` is absent):
level plus optional current/max experience. -/
structure ClassInfo where
  level : Nat
  current_xp : Option Nat
  max_xp : Option Nat
deriving DecidableEq

/-- Modelled from the spec: `Classes`, the keyed class-progress container
(`src/model/class.rs` is absent).  An insertion-ordered association list
whose lookup takes the most recent insertion (map overwrite semantics). -/
abbrev Classes := List (ClassType × Option ClassInfo)

/-- `Classes::new()`. -/
def Classes.new : Classes := []

/-- Map insert: overwrites any earlier entry for the key. -/
def Classes.insert (m : Classes) (k : ClassType) (v : Option ClassInfo) : Classes :=
  (k, v) :: m

/-- Map lookup. -/
def Classes.get : Classes → ClassType → Option (Option ClassInfo)
  | [], _ => none
  | (k, v) :: rest, c => if k = c then some v else Classes.get rest c

/-- `Server`'s `Display` impl (note the `Anima => "Aniuma"` string in the
source). -/
def Server.display : Server → String
  | .Aegis => "Aegis" | .Atomos => "Atomos" | .Carbuncle => "Carbuncle" | .Garuda => "Garuda"
  | .Gungnir => "Gungnir" | .Kujata => "Kujata" | .Ramuh => "Ramuh" | .Tonberry => "Tonberry"
  | .Typhon => "Typhon" | .Unicorn => "Unicorn"
  | .Alexander => "Alexander" | .Bahamut => "Bahamut" | .Durandal => "Durandal" | .Fenrir => "Fenrir"
  | .Ifrit => "Ifrit" | .Ridill => "Ridill" | .Tiamat => "Tiamat" | .Ultima => "Ultima"
  | .Valefor => "Valefor" | .Yojimbo => "Yojimbo" | .Zeromus => "Zeromus"
  | .Anima => "Aniuma" | .Asura => "Asura" | .Belias => "Belias" | .Chocobo => "Chocobo"
  | .Hades => "Hades" | .Ixion => "Ixion" | .Mandragora => "Mandragora" | .Masamune => "Masamune"
  | .Pandaemonium => "Pandaemonium" | .Shinryu => "Shinryu" | .Titan => "Titan"
  | .Adamantoise => "Adamantoise" | .Balmung => "Balmung" | .Cactuar => "Cactuar" | .Coeurl => "Coeurl"
  | .Faerie => "Faerie" | .Gilgamesh => "Gilgamesh" | .Goblin => "Goblin" | .Jenova => "Jenova"
  | .Mateus => "Mateus" | .Midgardsormr => "Midgardsormr" | .Sargatanas => "Sargatanas" | .Siren => "Siren"
  | .Zalera => "Zalera"
  | .Behemoth => "Behemoth" | .Brynhildr => "Brynhildr" | .Diabolos => "Diabolos"
  | .Excalibur => "Excalibur" | .Exodus => "Exodus" | .Famfrit => "Famfrit" | .Hyperion => "Hyperion"
  | .Lamia => "Lamia" | .Leviathan => "Leviathan" | .Malboro => "Malboro" | .Ultros => "Ultros"
  | .Cerberus => "Cerberus" | .Louisoix => "Louisoix" | .Moogle => "Moogle" | .Omega => "Omega"
  | .Ragnarok => "Ragnarok" | .Spriggan => "Spriggan"
  | .Lich => "Lich" | .Odin => "Odin" | .Phoenix => "Phoenix" | .Shiva => "Shiva"
  | .Twintania => "Twintania" | .Zodiark => "Zodiark"
  | .Bismarck => "Bismarck" | .Ravana => "Ravana" | .Sephirot => "Sephirot" | .Sophia => "Sophia"
  | .Zurvan => "Zurvan"

/-- The `match` body of `Server::from_str`, on the already-uppercased text. -/
def Server.matchUpper : String → Except ServerParseError Server
  | "AEGIS" => .ok .Aegis
  | "ATOMOS" => .ok .Atomos
  | "CARBUNCLE" => .ok .Carbuncle
  | "GARUDA" => .ok .Garuda
  | "GUNGNIR" => .ok .Gungnir
  | "KUJATA" => .ok .Kujata
  | "RAMUH" => .ok .Ramuh
  | "TONBERRY" => .ok .Tonberry
  | "TYPHON" => .ok .Typhon
  | "UNICORN" => .ok .Unicorn
  | "ALEXANDER" => .ok .Alexander
  | "BAHAMUT" => .ok .Bahamut
  | "DURANDAL" => .ok .Durandal
  | "FENRIR" => .ok .Fenrir
  | "IFRIT" => .ok .Ifrit
  | "RIDILL" => .ok .Ridill
  | "TIAMAT" => .ok .Tiamat
  | "ULTIMA" => .ok .Ultima
  | "VALEFOR" => .ok .Valefor
  | "YOJIMBO" => .ok .Yojimbo
  | "ZEROMUS" => .ok .Zeromus
  | "ANIMA" => .ok .Anima
  | "ANIUMA" => .ok .Anima
  | "ASURA" => .ok .Asura
  | "BELIAS" => .ok .Belias
  | "CHOCOBO" => .ok .Chocobo
  | "HADES" => .ok .Hades
  | "IXION" => .ok .Ixion
  | "MANDRAGORA" => .ok .Mandragora
  | "MASAMUNE" => .ok .Masamune
  | "PANDAEMONIUM" => .ok .Pandaemonium
  | "SHINRYU" => .ok .Shinryu
  | "TITAN" => .ok .Titan
  | "ADAMANTOISE" => .ok .Adamantoise
  | "BALMUNG" => .ok .Balmung
  | "CACTUAR" => .ok .Cactuar
  | "COEURL" => .ok .Coeurl
  | "FAERIE" => .ok .Faerie
  | "GILGAMESH" => .ok .Gilgamesh
  | "GOBLIN" => .ok .Goblin
  | "JENOVA" => .ok .Jenova
  | "MATEUS" => .ok .Mateus
  | "MIDGARDSORMR" => .ok .Midgardsormr
  | "SARGATANAS" => .ok .Sargatanas
  | "SIREN" => .ok .Siren
  | "ZALERA" => .ok .Zalera
  | "BEHEMOTH" => .ok .Behemoth
  | "BRYNHILDR" => .ok .Brynhildr
  | "DIABOLOS" => .ok .Diabolos
  | "EXCALIBUR" => .ok .Excalibur
  | "EXODUS" => .ok .Exodus
  | "FAMFRIT" => .ok .Famfrit
  | "HYPERION" => .ok .Hyperion
  | "LAMIA" => .ok .Lamia
  | "LEVIATHAN" => .ok .Leviathan
  | "MALBORO" => .ok .Malboro
  | "ULTROS" => .ok .Ultros
  | "CERBERUS" => .ok .Cerberus
  | "LOUISOIX" => .ok .Louisoix
  | "MOOGLE" => .ok .Moogle
  | "OMEGA" => .ok .Omega
  | "RAGNAROK" => .ok .Ragnarok
  | "SPRIGGAN" => .ok .Spriggan
  | "LICH" => .ok .Lich
  | "ODIN" => .ok .Odin
  | "PHOENIX" => .ok .Phoenix
  | "SHIVA" => .ok .Shiva
  | "TWINTANIA" => .ok .Twintania
  | "ZODIARK" => .ok .Zodiark
  | "BISMARCK" => .ok .Bismarck
  | "RAVANA" => .ok .Ravana
  | "SEPHIROT" => .ok .Sephirot
  | "SOPHIA" => .ok .Sophia
  | "ZURVAN" => .ok .Zurvan
  | x => .error (.CategoryParseError x)

/-- `Server::from_str`: match on the uppercased input. -/
def Server.fromStr (s : String) : Except ServerParseError Server :=
  Server.matchUpper (toUpperStr s)

/-- `Datacenter`'s `Display` impl. -/
def Datacenter.display : Datacenter → String
  | .Aether => "Aether" | .Chaos => "Chaos" | .Crystal => "Crystal" | .Elemental => "Elemental"
  | .Gaia => "Gaia" | .Light => "Light" | .Mana => "Mana" | .Primal => "Primal"
  | .Materia => "Materia" | .Meteor => "Meteor" | .Dynamis => "Dynamis"

/-- The `match` body of `Datacenter::from_str` (error payload is the
`DatacenterParseError(String)` tuple struct's field). -/
def Datacenter.matchUpper : String → Except String Datacenter
  | "AETHER" => .ok .Aether
  | "CHAOS" => .ok .Chaos
  | "CRYSTAL" => .ok .Crystal
  | "ELEMENTAL" => .ok .Elemental
  | "GAIA" => .ok .Gaia
  | "LIGHT" => .ok .Light
  | "MANA" => .ok .Mana
  | "PRIMAL" => .ok .Primal
  | "MATERIA" => .ok .Materia
  | "METEOR" => .ok .Meteor
  | "DYNAMIS" => .ok .Dynamis
  | x => .error x

/-- `Datacenter::from_str`: match on the uppercased input. -/
def Datacenter.fromStr (s : String) : Except String Datacenter :=
  Datacenter.matchUpper (toUpperStr s)

/-- `ServerCategory`'s `Display` impl (note the `"Conjested"` string in the
source). -/
def ServerCategory.display : ServerCategory → String
  | .Standard => "Standard"
  | .Preferred => "Preferred"
  | .Congested => "Conjested"
  | .New => "New"

/-- `ServerCategory::from_str`: trim, then a case-sensitive match. -/
def ServerCategory.fromStr (s : String) : Except ServerParseError ServerCategory :=
  let trimmed := rustTrim s
  match trimmed with
  | "Standard" => .ok .Standard
  | "Preferred" => .ok .Preferred
  | "Congested" => .ok .Congested
  | "New" => .ok .New
  | _ => .error (.CategoryParseError trimmed)

/-- `Race::from_str` (`model/race.rs`): match on the uppercased input. -/
def Race.fromStr (s : String) : Except String Race :=
  match toUpperStr s with
  | "AU RA" => .ok .Aura
  | "ELEZEN" => .ok .Elezen
  | "HYUR" => .ok .Hyur
  | "LALAFELL" => .ok .Lalafell
  | "MIQO\x27TE" => .ok .Miqote
  | "ROEGADYN" => .ok .Roegadyn
  | x => .error x

/-- `Gender::from_str` (`model/gender.rs`): exact symbol match. -/
def Gender.fromStr (s : String) : Except String Gender :=
  match s with
  | "♀" => .ok .Female
  | "♂" => .ok .Male
  | x => .error x

/-- `GrandCompany::from_str` (`model/gc.rs`): uppercased match with the
synonym list. -/
def GrandCompany.fromStr (s : String) : Except String GrandCompany :=
  match toUpperStr s with
  | "MAELSTROM" => .ok .Maelstrom
  | "ORDER OF THE TWIN ADDER" => .ok .TwinAdder
  | "TWIN ADDER" => .ok .TwinAdder
  | "IMMORTAL FLAMES" => .ok .ImmortalFlames
  | "" => .ok .Unaffiliated
  | "NONE" => .ok .Unaffiliated
  | "UNAFFILIATED" => .ok .Unaffiliated
  | x => .error x

/-- Modelled from the spec: `Clan::from_str` (`src/model/clan.rs` is
absent); case-insensitive on trimmed text, unknown text is an error
carrying the offending string. -/
def Clan.fromStr (s : String) : Except String Clan :=
  match toUpperStr (rustTrim s) with
  | "MIDLANDER" => .ok .Midlander
  | "HIGHLANDER" => .ok .Highlander
  | "WILDWOOD" => .ok .Wildwood
  | "DUSKWIGHT" => .ok .Duskwight
  | "PLAINSFOLK" => .ok .Plainsfolk
  | "DUNESFOLK" => .ok .Dunesfolk
  | "SEEKER OF THE SUN" => .ok .SeekerOfTheSun
  | "KEEPER OF THE MOON" => .ok .KeeperOfTheMoon
  | "SEA WOLF" => .ok .SeaWolf
  | "HELLSGUARD" => .ok .Hellsguard
  | "RAEN" => .ok .Raen
  | "XAELA" => .ok .Xaela
  | x => .error x

/-- Modelled from the spec: `ClassType::from_str` (`src/model/class.rs` is
absent); case-insensitive on trimmed text over the spec's job names,
unknown text is a typed parse error carrying the offending string. -/
def ClassType.fromStr (s : String) : Except String ClassType :=
  match toUpperStr (rustTrim s) with
  | "PALADIN" => .ok .Paladin
  | "GLADIATOR" => .ok .Gladiator
  | "WARRIOR" => .ok .Warrior
  | "MARAUDER" => .ok .Marauder
  | "WHITE MAGE" => .ok .WhiteMage
  | "CONJURER" => .ok .Conjurer
  | "MONK" => .ok .Monk
  | "PUGILIST" => .ok .Pugilist
  | "DRAGOON" => .ok .Dragoon
  | "LANCER" => .ok .Lancer
  | "NINJA" => .ok .Ninja
  | "ROGUE" => .ok .Rogue
  | "BARD" => .ok .Bard
  | "ARCHER" => .ok .Archer
  | "BLACK MAGE" => .ok .BlackMage
  | "THAUMATURGE" => .ok .Thaumaturge
  | "SUMMONER" => .ok .Summoner
  | "ARCANIST" => .ok .Arcanist
  | x => .error x

/-! ### Error types of the profile extractor (`model/profile.rs`) -/

/-- `model/profile.rs`: `SearchError`.  The `#[from]` conversions from the
catalog errors become constructors carrying the nested error payload. -/
inductive SearchError where
  | NodeNotFound (s : String)
  | InvalidData (s : String)
  | ServerParseError (e : ServerParseError)
  | ClanParseError (s : String)
  | GenderParseError (s : String)
  | ParseIntError
  | ClassTypeError (s : String)
  | RaceParseError (s : String)
deriving DecidableEq

/-- `model/profile.rs`: `CharInfo`. -/
structure CharInfo where
  race : Race
  clan : Clan
  gender : Gender
deriving DecidableEq

/-- `model/profile.rs`: `SecondaryAttribute`. -/
inductive SecondaryAttribute where
  | MP (v : Nat)
  | GP (v : Nat)
  | CP (v : Nat)
deriving DecidableEq

/-- The `ensure_node!` macro on a `Document`: `doc.find(p).nth(nth)`
with a `NodeNotFound` error carrying the stringified search (payload text
abbreviated here). -/
def ensureNodeD (doc : List HtmlNode) (p : NodePred) (nth : Nat) (payload : String) :
    Except SearchError HtmlNode :=
  match (docFind doc p).get? nth with
  | some n => .ok n
  | none => .error (.NodeNotFound payload)

/-- The `ensure_node!` macro on a `Node`. -/
def ensureNodeN (n : HtmlNode) (p : NodePred) (nth : Nat) (payload : String) :
    Except SearchError HtmlNode :=
  match (nodeFind n p).get? nth with
  | some m => .ok m
  | none => .error (.NodeNotFound payload)

/-! ### `Profile::parse_server` -/

/-- The non-breaking space the world text is split on first. -/
def nbspChar : Char := '\u00A0'

/-- `Profile::parse_server`: take the `frame__chara__world` text, split on
the non-breaking space, then on a plain space, and feed the first token to
`Server::from_str`. -/
def Profile.parse_server (doc : List HtmlNode) : Except SearchError Server := do
  let node ← ensureNodeD doc (.pClass "frame__chara__world") 0 "Class(frame__chara__world) (0)"
  let text := node.nodeText
  let server ← match (rustSplitChar text nbspChar).head? with
    | some s => Except.ok s
    | none => Except.error (.InvalidData "Could not find server string.")
  match (rustSplitChar server ' ').head? with
  | some w =>
    match Server.fromStr w with
    | .ok v => Except.ok v
    | .error e => Except.error (.ServerParseError e)
  | none => Except.error (.InvalidData "Server string was empty")

/-! ### `Profile::parse_char_info` -/

/-- The `char_block` preprocessing in `parse_char_info`: starting from the
block's `inner_html`, `replace(' ', "_")`, then `replace("<br>", " ")`,
then `replace("_/_", " ")`, split on whitespace, and undo the underscore
encoding per token. -/
def charTokens (block : String) : List String :=
  let b1 := replaceChar ' ' '_' block
  let b2 := replaceBr b1
  let b3 := replaceUscoreSlash b2
  (rustSplitWhitespace b3).map (fun e => replaceChar '_' ' ' e)

/-- `Profile::parse_char_info`: tokenize the first `character-block__name`
node's inner markup; three tokens parse as race/clan/gender, four tokens
set the race to `Au Ra` and parse tokens 3 and 4 as clan/gender, any other
count is `InvalidData`. -/
def Profile.parse_char_info (doc : List HtmlNode) : Except SearchError CharInfo := do
  let node ← ensureNodeD doc (.pClass "character-block__name") 0 "Class(character-block__name) (0)"
  let char_info := charTokens node.innerHtml
  match char_info with
  | [r, c, g] => do
    let race ← match Race.fromStr r with
      | .ok v => Except.ok v
      | .error e => Except.error (.RaceParseError e)
    let clan ← match Clan.fromStr c with
      | .ok v => Except.ok v
      | .error e => Except.error (.ClanParseError e)
    let gender ← match Gender.fromStr g with
      | .ok v => Except.ok v
      | .error e => Except.error (.GenderParseError e)
    Except.ok ⟨race, clan, gender⟩
  | [_, _, c, g] => do
    let clan ← match Clan.fromStr c with
      | .ok v => Except.ok v
      | .error e => Except.error (.ClanParseError e)
    let gender ← match Gender.fromStr g with
      | .ok v => Except.ok v
      | .error e => Except.error (.GenderParseError e)
    Except.ok ⟨Race.Aura, clan, gender⟩
  | _ => Except.error (.InvalidData "character block name")

/-! ### `Profile::parse_char_param` -/

/-- The three locale-specific marker classes scanned by
`parse_char_param` (the fourth branch of the source repeats `mpClassMark`). -/
def hpClassMark : String := "character__param__text__hp--en-us"

/-- The MP marker class. -/
def mpClassMark : String := "character__param__text__mp--en-us"

/-- The GP marker class. -/
def gpClassMark : String := "character__param__text__gp--en-us"

/-- `ensure_node!(item, Name("span")).text().parse::<u32>()?`, shared by
every branch of the loop body. -/
def spanValue (item : HtmlNode) : Except SearchError Nat := do
  let sp ← ensureNodeN item (.pName "span") 0 "Name(span) (0)"
  match rustParseU32 sp.nodeText with
  | some v => Except.ok v
  | none => Except.error .ParseIntError

/-- The `for item in attr_block.find(Name("li"))` loop of
`parse_char_param`, carrying the two mutable `Option` slots.  Note the
fourth branch (intended for CP) repeats the MP marker condition exactly as
the source does. -/
def paramLoop : List HtmlNode → Option Nat → Option SecondaryAttribute →
    Except SearchError (Option Nat × Option SecondaryAttribute)
  | [], hp, sec => .ok (hp, sec)
  | item :: rest, hp, sec =>
    if (nodeFind item (.pClass hpClassMark)).length = 1 then
      match spanValue item with
      | .ok v => paramLoop rest (some v) sec
      | .error e => .error e
    else if (nodeFind item (.pClass mpClassMark)).length = 1 then
      match spanValue item with
      | .ok v => paramLoop rest hp (some (.MP v))
      | .error e => .error e
    else if (nodeFind item (.pClass gpClassMark)).length = 1 then
      match spanValue item with
      | .ok v => paramLoop rest hp (some (.GP v))
      | .error e => .error e
    else if (nodeFind item (.pClass mpClassMark)).length = 1 then
      match spanValue item with
      | .ok v => paramLoop rest hp (some (.CP v))
      | .error e => .error e
    else
      paramLoop rest hp sec

/-- `Profile::parse_char_param`: scan the `li` items under the first
`character__param` block, then unwrap the HP slot (`NodeNotFound`) and the
secondary slot (`InvalidData`). -/
def Profile.parse_char_param (doc : List HtmlNode) :
    Except SearchError (Nat × SecondaryAttribute) := do
  let attr_block ← ensureNodeD doc (.pClass "character__param") 0 "Class(character__param) (0)"
  let (hp, secondary_attribute) ← paramLoop (nodeFind attr_block (.pName "li")) none none
  let h ← match hp with
    | some h => Except.ok h
    | none => Except.error (.NodeNotFound "HP not found")
  let s ← match secondary_attribute with
    | some s => Except.ok s
    | none => Except.error (.InvalidData "MP or GP not found")
  Except.ok (h, s)

/-! ### `Profile::parse_classes` -/

/-- The body of the inner `for item in list.find(Name("li"))` loop of
`parse_classes`, up to the class-name parse: name node, level node, the
`"-"` locked marker, and the `"current / max"` experience pair. -/
def parseClassItem (item : HtmlNode) :
    Except SearchError (ClassType × Option ClassInfo) := do
  let nameText := (← ensureNodeN item (.pClass "character__job__name") 0
    "Class(character__job__name) (0)").nodeText
  let levelNode ← ensureNodeN item (.pClass "character__job__level") 0
    "Class(character__job__level) (0)"
  let classinfo ←
    if levelNode.nodeText = "-" then Except.ok (none : Option ClassInfo)
    else do
      let text := (← ensureNodeN item (.pClass "character__job__exp") 0
        "Class(character__job__exp) (0)").nodeText
      let parts := rustSplitSlash text
      let current_xp ← match parts.get? 0 with
        | some c => Except.ok c
        | none => Except.error (.InvalidData "character__job__exp")
      let max_xp ← match parts.get? 1 with
        | some m => Except.ok m
        | none => Except.error (.InvalidData "character__job__exp")
      let lvl ← match rustParseU32 levelNode.nodeText with
        | some v => Except.ok v
        | none => Except.error SearchError.ParseIntError
      let cur ←
        if current_xp = "--" then Except.ok (none : Option Nat)
        else match rustParseU32 (stripCommas current_xp) with
          | some v => Except.ok (some v)
          | none => Except.error SearchError.ParseIntError
      let mx ←
        if max_xp = "--" then Except.ok (none : Option Nat)
        else match rustParseU32 (stripCommas max_xp) with
          | some v => Except.ok (some v)
          | none => Except.error SearchError.ParseIntError
      Except.ok (some (⟨lvl, cur, mx⟩ : ClassInfo))
  let name ← match (rustSplitSlash nameText).get? 0 with
    | some n => Except.ok n
    | none => Except.error (.InvalidData "character__job__name")
  let cls ← match ClassType.fromStr name with
    | .ok c => Except.ok c
    | .error e => Except.error (.ClassTypeError e)
  Except.ok (cls, classinfo)

/-- The advanced-job insertion `match` of `parse_classes`: an advanced
job's row is also written under its base class before the row's own
insert. -/
def insertClassRow (classes : Classes) (cls : ClassType) (classinfo : Option ClassInfo) :
    Classes :=
  let classes := match cls with
    | .Paladin => classes.insert .Gladiator classinfo
    | .Warrior => classes.insert .Marauder classinfo
    | .WhiteMage => classes.insert .Conjurer classinfo
    | .Monk => classes.insert .Pugilist classinfo
    | .Dragoon => classes.insert .Lancer classinfo
    | .Ninja => classes.insert .Rogue classinfo
    | .Bard => classes.insert .Archer classinfo
    | .BlackMage => classes.insert .Thaumaturge classinfo
    | .Summoner => classes.insert .Arcanist classinfo
    | _ => classes
  classes.insert cls classinfo

/-- The sequential run over all job-row items of `parse_classes`. -/
def parseClassItems : List HtmlNode → Classes → Except SearchError Classes
  | [], classes => .ok classes
  | item :: rest, classes =>
    match parseClassItem item with
    | .ok (cls, classinfo) => parseClassItems rest (insertClassRow classes cls classinfo)
    | .error e => .error e

/-- The job-row items scanned by `parse_classes`: the `li` items of the
first four `character__content` groups, in document order (the source's
two nested loops, linearized). -/
def classItems (doc : List HtmlNode) : List HtmlNode :=
  ((docFind doc (.pClass "character__content")).take 4).flatMap
    (fun list => nodeFind list (.pName "li"))

/-- `Profile::parse_classes`. -/
def Profile.parse_classes (doc : List HtmlNode) : Except SearchError Classes :=
  parseClassItems (classItems doc) Classes.new

/-! ### The server status extractor (`model/server.rs`) -/

/-- `Result::or`: keep the first `Ok`, otherwise the second result. -/
def exceptOr {e a : Type} (x y : Except e a) : Except e a :=
  match x with
  | .ok v => .ok v
  | .error _ => y

/-- `node.find(Class(c)).next()`, the marker-presence probe used all over
the status extractor. -/
def firstClassDesc (n : HtmlNode) (c : String) : Option HtmlNode :=
  (nodeFind n (.pClass c)).head?

/-- `CharacterAvailability::parse_from`: the available marker, or else the
unavailable marker. -/
def CharacterAvailability.parse_from (n : HtmlNode) :
    Except ServerParseError CharacterAvailability :=
  exceptOr
    (match firstClassDesc n "world-ic__available" with
      | some _ => .ok .CharactersAvailable
      | none => .error (.NodeMissing "world-ic__available"))
    (match firstClassDesc n "world-ic__unavailable" with
      | some _ => .ok .CharactersUnavailable
      | none => .error (.NodeMissing "world-ic__unavailable"))

/-- `ServerCategory::parse_from`: text of the category node fed to
`ServerCategory::from_str`. -/
def ServerCategory.parse_from (n : HtmlNode) : Except ServerParseError ServerCategory :=
  match firstClassDesc n "world-list__world_category" with
  | some nd => ServerCategory.fromStr nd.nodeText
  | none => .error (.NodeMissing "world-list__world_category")

/-- `ServerStatus::parse_from`: the `world-ic__1` / `world-ic__2` /
`world-ic__3` markers probed through a `Result::or` chain (each arm's
closure body is itself a `Result`, unwrapped by the trailing `?`). -/
def ServerStatus.parse_from (n : HtmlNode) : Except ServerParseError ServerStatus :=
  let s1 : Except ServerParseError (Except ServerParseError ServerStatus) :=
    match firstClassDesc n "world-ic__1" with
    | some _ => .ok (do
        let c ← ServerCategory.parse_from n
        let a ← CharacterAvailability.parse_from n
        Except.ok (ServerStatus.Online c a))
    | none => .error (.NodeMissing "world-ic__1")
  let s2 : Except ServerParseError (Except ServerParseError ServerStatus) :=
    match firstClassDesc n "world-ic__2" with
    | some _ => .ok (do
        let c ← ServerCategory.parse_from n
        let a ← CharacterAvailability.parse_from n
        Except.ok (ServerStatus.PartialMaintenance c a))
    | none => .error (.NodeMissing "world-ic__2")
  let s3 : Except ServerParseError (Except ServerParseError ServerStatus) :=
    match firstClassDesc n "world-ic__3" with
    | some _ => .ok (Except.ok ServerStatus.Maintenance)
    | none => .error (.NodeMissing "world-ic__3")
  match exceptOr (exceptOr s1 s2) s3 with
  | .ok inner => inner
  | .error e => .error e

/-! ### The leaderboard row extractor (`model/standings.rs`) -/

/-- `model/standings.rs`: `FreeCompanyParseError`. -/
inductive FreeCompanyParseError where
  | TableNotFound
  | RankingMissing
  | DataCenterMissing
  | WorldNameMissing
  | GrandCompanyMissing
  | CreditsMissing
  | FreeCompanyMissing
  | ParseIntError
  | ServerParseError (e : ServerParseError)
  | DatacenterParseError (s : String)
  | GrandCompanyParseError (s : String)
deriving DecidableEq

/-- `model/standings.rs`: `FreeCompanyRankingResult`. -/
structure FreeCompanyRankingResult where
  ranking : Int
  free_company_name : String
  world_name : Server
  datacenter : Datacenter
  grand_company : GrandCompany
  company_credits : Int
deriving DecidableEq

/-- Outcome of running a fallible Rust function that can also panic:
`crashed` marks the panic (unwinding), which is not a return value. -/
inductive RResult (α : Type) where
  | ok (v : α)
  | err (e : FreeCompanyParseError)
  | crashed
deriving DecidableEq

/-- Element children, `row.children().filter(|e| Element.matches(e))`. -/
def elemChildren (n : HtmlNode) : List HtmlNode :=
  n.childNodes.filter NodePred.pElement.matches

/-- `FreeCompanyLeaderboardQuery::parse_node`: positional decomposition of
one ranking-table row.  The iterator's successive `next()` calls become
indices 0 (ranking), 1 (skipped crest), 2 (free-company block), 3 (grand
company), 4 (credits).  The bracket strip
`datacenter[1..datacenter.len() - 1]` is byte slicing with an unguarded
`usize` subtraction: for a token shorter than two bytes it panics
(`crashed`). -/
def FreeCompanyLeaderboardQuery.parse_node (row : HtmlNode) :
    RResult FreeCompanyRankingResult :=
  let children := elemChildren row
  match children.get? 0 with
  | none => .err .RankingMissing
  | some c0 =>
    match rustParseI32 (rustTrim c0.nodeText) with
    | none => .err .ParseIntError
    | some ranking =>
      match children.get? 2 with
      | none => .err .FreeCompanyMissing
      | some free_company_data =>
        let fc_data_children := elemChildren free_company_data
        match fc_data_children.get? 0 with
        | none => .err .FreeCompanyMissing
        | some nameNode =>
          let free_company_name := nameNode.nodeText
          match fc_data_children.get? 1 with
          | none => .err .WorldNameMissing
          | some worldNode =>
            let server_str := rustSplitChar worldNode.nodeText ' '
            match server_str.get? 0 with
            | none => .err .WorldNameMissing
            | some worldTok =>
              match Server.fromStr (rustTrim worldTok) with
              | .error e => .err (.ServerParseError e)
              | .ok world_name =>
                match server_str.get? 1 with
                | none => .err .DataCenterMissing
                | some dcTok =>
                  match strSlice dcTok 1 (usizeSub dcTok.data.length 1) with
                  | none => .crashed
                  | some dcInner =>
                    match Datacenter.fromStr dcInner with
                    | .error s => .err (.DatacenterParseError s)
                    | .ok datacenter =>
                      match children.get? 3 with
                      | none => .err .GrandCompanyMissing
                      | some gcCell =>
                        match (nodeFind gcCell .pElement).head? with
                        | none => .err .GrandCompanyMissing
                        | some icon =>
                          match icon.attr "alt" with
                          | none => .err .GrandCompanyMissing
                          | some alt =>
                            match GrandCompany.fromStr alt with
                            | .error s => .err (.GrandCompanyParseError s)
                            | .ok grand_company =>
                              match children.get? 4 with
                              | none => .err .CreditsMissing
                              | some creditsCell =>
                                match rustParseI64 (rustTrim creditsCell.nodeText) with
                                | none => .err .ParseIntError
                                | some company_credits =>
                                  .ok ⟨ranking, free_company_name, world_name,
                                    datacenter, grand_company, company_credits⟩

/-- The `collect::<Result<Vec<_>, _>>()` over the row iterator: stop at the
first non-`ok` outcome. -/
def collectRows : List HtmlNode → RResult (List FreeCompanyRankingResult)
  | [] => .ok []
  | r :: rs =>
    match FreeCompanyLeaderboardQuery.parse_node r with
    | .ok v =>
      match collectRows rs with
      | .ok vs => .ok (v :: vs)
      | .err e => .err e
      | .crashed => .crashed
    | .err e => .err e
    | .crashed => .crashed

/-- `FreeCompanyLeaderboardQuery::parse_data`: find the ranking table, map
`parse_node` over its `tr` rows, or `TableNotFound`. -/
def FreeCompanyLeaderboardQuery.parse_data (doc : List HtmlNode) :
    RResult (List FreeCompanyRankingResult) :=
  match (docFind doc (.pClass "ranking-character")).head? with
  | some table => collectRows (nodeFind table (.pName "tr"))
  | none => .err .TableNotFound

/-! ### The search result extractor (`src/search.rs`) -/

/-- `src/search.rs`: `ProfileSearchResult`. -/
structure ProfileSearchResult where
  user_id : Nat
  name : String
  world : String
deriving DecidableEq

/-- The per-entry closure of `SearchBuilder::parse_profile`: identifier
digits from the `href` attribute (first ASCII digit run, parsed as `u32`),
then the name and world texts; `none` drops the entry. -/
def parseSearchEntry (node : HtmlNode) : Option ProfileSearchResult := do
  let href ← node.attr "href"
  let digits : String := ⟨(href.data.dropWhile (fun ch => !ch.isDigit)).takeWhile
    (fun ch => ch.isDigit)⟩
  let user_id ← rustParseU32 digits
  let name ← ((nodeFind node (.pClass "entry__name")).map HtmlNode.nodeText).head?
  let world ← ((nodeFind node (.pClass "entry__world")).map HtmlNode.nodeText).head?
  some ⟨user_id, name, world⟩

/-- `SearchBuilder::parse_profile`: `filter_map` over the `entry__link`
nodes. -/
def SearchBuilder.parse_profile (doc : List HtmlNode) : List ProfileSearchResult :=
  (docFind doc (.pClass "entry__link")).filterMap parseSearchEntry

/-! ### Definitions used to state the claims -/

/-- The HP marker condition of the loop, as a boolean. -/
def hpMark (it : HtmlNode) : Bool := (nodeFind it (.pClass hpClassMark)).length == 1

/-- The MP marker condition of the loop, as a boolean. -/
def mpMark (it : HtmlNode) : Bool := (nodeFind it (.pClass mpClassMark)).length == 1

/-- The GP marker condition of the loop, as a boolean. -/
def gpMark (it : HtmlNode) : Bool := (nodeFind it (.pClass gpClassMark)).length == 1

/-- An item that updates the secondary-resource slot: not an HP item, and
matching the MP or GP marker (the CP branch repeats the MP condition and
can never fire). -/
def secMark (it : HtmlNode) : Bool := !hpMark it && (mpMark it || gpMark it)

/-- The span value of an item, defaulting to 0 on error (only used under
the hypothesis that processing the item succeeds). -/
def spanNat (it : HtmlNode) : Nat :=
  match spanValue it with
  | .ok v => v
  | .error _ => 0

/-- Processing an item does not abort the loop: items matching a marker
have a parseable span value. -/
def itemOk (it : HtmlNode) : Bool :=
  !(hpMark it || mpMark it || gpMark it) ||
    (match spanValue it with
     | .ok _ => true
     | .error _ => false)

/-- One step of the HP slot: a matching item overwrites the slot. -/
def hpStep (a : Option Nat) (it : HtmlNode) : Option Nat :=
  if hpMark it then some (spanNat it) else a

/-- One step of the secondary slot: a matching item overwrites the slot
with MP (checked first) or GP. -/
def secStep (a : Option SecondaryAttribute) (it : HtmlNode) : Option SecondaryAttribute :=
  if hpMark it then a
  else if mpMark it then some (.MP (spanNat it))
  else if gpMark it then some (.GP (spanNat it))
  else a

/-- Follows the spec's words, corrected to overwrite semantics: the LAST
matching items decide `hp` and the secondary attribute; a missing HP match
is `NodeNotFound` (checked first), a missing secondary match is
`InvalidData`. -/
def lastMatchResult (items : List HtmlNode) :
    Except SearchError (Nat × SecondaryAttribute) :=
  match items.foldl hpStep none, items.foldl secStep none with
  | none, _ => .error (.NodeNotFound "HP not found")
  | some _, none => .error (.InvalidData "MP or GP not found")
  | some h, some s => .ok (h, s)

/-- A job row whose experience text has `"--"` on both sides of `" / "` or
on neither (the shape every real row has, and the hypothesis under which
the spec's both-or-none invariant holds). -/
def xpAligned (item : HtmlNode) : Bool :=
  match (nodeFind item (.pClass "character__job__exp")).get? 0 with
  | some n =>
    let parts := rustSplitSlash n.nodeText
    (parts.get? 0 == some "--") == (parts.get? 1 == some "--")
  | none => true

/-- Whether a job-row item parses to the given class identifier. -/
def rowIsClass (item : HtmlNode) (c : ClassType) : Bool :=
  match parseClassItem item with
  | .ok (c2, _) => c2 == c
  | _ => false

/-- The advanced-to-base pairing of the nine advanced jobs (the keys of the
insertion `match` in `parse_classes`). -/
def advBase : ClassType → Option ClassType
  | .Paladin => some .Gladiator
  | .Warrior => some .Marauder
  | .WhiteMage => some .Conjurer
  | .Monk => some .Pugilist
  | .Dragoon => some .Lancer
  | .Ninja => some .Rogue
  | .Bard => some .Archer
  | .BlackMage => some .Thaumaturge
  | .Summoner => some .Arcanist
  | .Gladiator => none
  | .Marauder => none
  | .Conjurer => none
  | .Pugilist => none
  | .Lancer => none
  | .Rogue => none
  | .Archer => none
  | .Thaumaturge => none
  | .Arcanist => none

/-- Whether a `parse_server` outcome is the `InvalidData` error. -/
def resultIsInvalidData : Except SearchError Server → Bool
  | .error (.InvalidData _) => true
  | _ => false

/-- Whether a `parse_char_param` outcome carries the CP variant. -/
def secNotCP : Except SearchError (Nat × SecondaryAttribute) → Bool
  | .ok (_, .CP _) => false
  | _ => true

/-- Whether a pending secondary slot carries the CP variant. -/
def optNotCP : Option SecondaryAttribute → Bool
  | some (.CP _) => false
  | _ => true

/-- Follows the spec's words: a search-result entry is well-formed when its
link attribute holds a parseable run of ASCII digits (the first run, per
spec section 4.6) and the name and world nodes are present. -/
def searchEntryWellFormed (node : HtmlNode) : Bool :=
  (match node.attr "href" with
   | some href =>
     (rustParseU32 ⟨(href.data.dropWhile (fun ch => !ch.isDigit)).takeWhile
       (fun ch => ch.isDigit)⟩).isSome
   | none => false)
  && ((nodeFind node (.pClass "entry__name")).head?).isSome
  && ((nodeFind node (.pClass "entry__world")).head?).isSome

/-! ### Concrete sample documents -/

/-- A leaderboard row cell holding the rank text. -/
def c1rankCell : HtmlNode := .elem "td" [] [] [.textNode "1"]

/-- The decorative crest cell. -/
def c1crest : HtmlNode := .elem "td" [] [] []

/-- A free-company cell whose world text has a one-byte second token. -/
def c1fcCell : HtmlNode :=
  .elem "td" [] []
    [.elem "h4" [] [] [.textNode "Cool Company"], .elem "p" [] [] [.textNode "Siren x"]]

/-- The leaderboard row that makes the bracket strip panic. -/
def c1row : HtmlNode := .elem "tr" [] [] [c1rankCell, c1crest, c1fcCell]

/-- A ranking document around `c1row`. -/
def c1doc : List HtmlNode := [.elem "table" ["ranking-character"] [] [c1row]]

/-- A parameter-list item carrying one marker class and one span value. -/
def paramItem (mark : String) (value : String) : HtmlNode :=
  .elem "li" [] [] [.elem "p" [mark] [] [], .elem "span" [] [] [.textNode value]]

/-- A parameters block with two HP items and two MP items. -/
def c2blockNode : HtmlNode :=
  .elem "div" ["character__param"] []
    [paramItem hpClassMark "1", paramItem hpClassMark "2",
     paramItem mpClassMark "5", paramItem mpClassMark "7"]

/-- The document around `c2blockNode`. -/
def c2doc : List HtmlNode := [c2blockNode]

/-- A race/clan/gender block serializing to
`"Foo<br>Bar<br>Midlander<br>♂"`: four tokens whose first two are not the
two-word race name. -/
def c3block : HtmlNode :=
  .elem "p" ["character-block__name"] []
    [.textNode "Foo", .elem "br" [] [] [], .textNode "Bar", .elem "br" [] [] [],
     .textNode "Midlander", .elem "br" [] [] [], .textNode "♂"]

/-- The document around `c3block`. -/
def c3doc : List HtmlNode := [c3block]

/-- A second four-token block, for the witness. -/
def c3wblock : HtmlNode :=
  .elem "p" ["character-block__name"] []
    [.textNode "Xx", .elem "br" [] [] [], .textNode "Yy", .elem "br" [] [] [],
     .textNode "Raen", .elem "br" [] [] [], .textNode "♀"]

/-- The document around `c3wblock`. -/
def c3wdoc : List HtmlNode := [c3wblock]

/-- A class/job row item with the given name, level and experience texts. -/
def classRow (nm lv xp : String) : HtmlNode :=
  .elem "li" [] []
    [.elem "p" ["character__job__name"] [] [.textNode nm],
     .elem "p" ["character__job__level"] [] [.textNode lv],
     .elem "p" ["character__job__exp"] [] [.textNode xp]]

/-- A classes document whose one row reads `"-- / 123"`. -/
def c4doc : List HtmlNode :=
  [.elem "div" ["character__content"] [] [classRow "Paladin" "50" "-- / 123"]]

/-- The `ClassInfo` that row produces: exactly one xp field present. -/
def c4info : ClassInfo := ⟨50, none, some 123⟩

/-- The resulting class map of `c4doc`. -/
def c4map : Classes := [(.Paladin, some c4info), (.Gladiator, some c4info)]

/-- A well-shaped classes document, for the witness. -/
def c4wdoc : List HtmlNode :=
  [.elem "div" ["character__content"] [] [classRow "Gladiator" "22" "10 / 20"]]

/-- The `ClassInfo` of the witness row. -/
def c4winfo : ClassInfo := ⟨22, some 10, some 20⟩

/-- The resulting class map of `c4wdoc`. -/
def c4wmap : Classes := [(.Gladiator, some c4winfo)]

/-- A classes document with a Paladin row followed by a separate Gladiator
row carrying different progress. -/
def c6doc : List HtmlNode :=
  [.elem "div" ["character__content"] []
    [classRow "Paladin" "50" "1 / 2", classRow "Gladiator" "40" "3 / 4"]]

/-- The Paladin row's progress in `c6doc`. -/
def c6infoA : ClassInfo := ⟨50, some 1, some 2⟩

/-- The Gladiator row's progress in `c6doc`. -/
def c6infoB : ClassInfo := ⟨40, some 3, some 4⟩

/-- The resulting class map of `c6doc`. -/
def c6map : Classes :=
  [(.Gladiator, some c6infoB), (.Paladin, some c6infoA), (.Gladiator, some c6infoA)]

/-- A classes document with only the Paladin row, for the witness. -/
def c6wdoc : List HtmlNode :=
  [.elem "div" ["character__content"] [] [classRow "Paladin" "50" "1 / 2"]]

/-- The resulting class map of `c6wdoc`. -/
def c6wmap : Classes := [(.Paladin, some c6infoA), (.Gladiator, some c6infoA)]

/-- The category node of the status samples. -/
def c7catNode : HtmlNode := .elem "div" ["world-list__world_category"] [] [.textNode "Standard"]

/-- The availability node of the status samples. -/
def c7availNode : HtmlNode := .elem "div" ["world-ic__available"] [] []

/-- A world row carrying the online marker. -/
def c7n1 : HtmlNode := .elem "div" [] [] [.elem "i" ["world-ic__1"] [] [], c7catNode, c7availNode]

/-- A world row carrying only the partial-maintenance marker. -/
def c7n2 : HtmlNode := .elem "div" [] [] [.elem "i" ["world-ic__2"] [] [], c7catNode, c7availNode]

/-- A world row carrying only the full-maintenance marker. -/
def c7n3 : HtmlNode := .elem "div" [] [] [.elem "i" ["world-ic__3"] [] []]

/-- A world row with no status marker at all. -/
def c7n0 : HtmlNode := .elem "div" [] [] [c7catNode]

/-- A world node whose text starts with the non-breaking space, making the
first intermediate token empty. -/
def c8node : HtmlNode :=
  .elem "p" ["frame__chara__world"] [] [.textNode "\u00A0Siren [Aether]"]

/-- The document around `c8node`. -/
def c8doc : List HtmlNode := [c8node]

/-- The name node of the search samples. -/
def c9name : HtmlNode := .elem "p" ["entry__name"] [] [.textNode "Fine Fellow"]

/-- The world node of the search samples. -/
def c9world : HtmlNode := .elem "p" ["entry__world"] [] [.textNode "Siren [Aether]"]

/-- A well-formed search entry. -/
def c9good : HtmlNode :=
  .elem "a" ["entry__link"] [("href", "/lodestone/character/123/")] [c9name, c9world]

/-- A malformed search entry: the link attribute is missing. -/
def c9bad : HtmlNode := .elem "a" ["entry__link"] [] [c9name, c9world]

/-- A search document with one well-formed and one malformed entry. -/
def c9doc : List HtmlNode := [.elem "div" [] [] [c9good, c9bad]]

/-! ### Helper lemmas -/

/-- `Char.ofNat` of a valid scalar value decodes back to it. -/
theorem toNat_ofNat_valid {n : Nat} (h : n.isValidChar) : (Char.ofNat n).toNat = n := by
  rw [Char.ofNat, dif_pos h]
  rfl

/-- ASCII uppercasing is idempotent character-wise. -/
theorem char_toUpper_idem (c : Char) : c.toUpper.toUpper = c.toUpper := by
  simp only [Char.toUpper]
  by_cases h : c.toNat ≥ 97 ∧ c.toNat ≤ 122
  · rw [if_pos h]
    have hv : (Char.ofNat (c.toNat - 32)).toNat = c.toNat - 32 :=
      toNat_ofNat_valid (Or.inl (by omega))
    rw [if_neg (by rw [hv]; omega)]
  · rw [if_neg h, if_neg h]

/-- The model of `str::to_uppercase` is idempotent. -/
theorem toUpperStr_idem (s : String) : toUpperStr (toUpperStr s) = toUpperStr s := by
  simp only [toUpperStr, List.map_map]
  exact congrArg String.mk (List.map_congr_left (fun a _ => char_toUpper_idem a))

/-! ### C5: catalog round-trip and case-insensitivity -/

/-- C5 counterexample: the claim fails for `ServerCategory` — the display
string of `Congested` is the typo `"Conjested"`, which does not parse
back, and parsing is case-sensitive (`"Standard"` parses, its uppercase
does not). -/
theorem c5_category_breaks_round_trip :
    ServerCategory.fromStr (ServerCategory.display .Congested) =
      .error (.CategoryParseError "Conjested")
    ∧ ServerCategory.fromStr "Standard" = .ok .Standard
    ∧ ServerCategory.fromStr (toUpperStr "Standard") =
      .error (.CategoryParseError "STANDARD") := by
  decide

set_option maxHeartbeats 1000000 in
/-- C5, amended: the display/parse round trip and case-insensitivity
(`parse(text) = parse(uppercase(text))`) hold for `Server` and
`Datacenter`; for `ServerCategory` parsing is case-sensitive and the round
trip holds only for `Standard`, `Preferred` and `New` — `Congested`
displays as the typo `"Conjested"`, which does not parse back. -/
theorem c5_catalog_round_trip_amended :
    (∀ v : Server, Server.fromStr (Server.display v) = .ok v)
    ∧ (∀ d : Datacenter, Datacenter.fromStr (Datacenter.display d) = .ok d)
    ∧ (∀ s : String, Server.fromStr (toUpperStr s) = Server.fromStr s)
    ∧ (∀ s : String, Datacenter.fromStr (toUpperStr s) = Datacenter.fromStr s)
    ∧ ServerCategory.fromStr (ServerCategory.display .Standard) = .ok .Standard
    ∧ ServerCategory.fromStr (ServerCategory.display .Preferred) = .ok .Preferred
    ∧ ServerCategory.fromStr (ServerCategory.display .New) = .ok .New := by
  refine ⟨?_, ?_, ?_, ?_, by decide, by decide, by decide⟩
  · intro v
    cases v <;> rfl
  · intro d
    cases d <;> rfl
  · intro s
    unfold Server.fromStr
    rw [toUpperStr_idem]
  · intro s
    unfold Datacenter.fromStr
    rw [toUpperStr_idem]

/-! ### C7: status marker order -/

/-- C7: for every world row node the three status markers are tried in
order (`world-ic__1` online, `world-ic__2` partial maintenance,
`world-ic__3` maintenance) and the first present marker decides the
variant; with none present the result is a `NodeMissing` error; an
unrecognized trimmed category label yields `CategoryParseError` carrying
the offending text. -/
theorem c7_status_marker_order :
    (∀ n : HtmlNode, (firstClassDesc n "world-ic__1").isSome = true →
      ServerStatus.parse_from n = (do
        let c ← ServerCategory.parse_from n
        let a ← CharacterAvailability.parse_from n
        Except.ok (ServerStatus.Online c a)))
    ∧ (∀ n : HtmlNode, (firstClassDesc n "world-ic__1").isSome = false →
        (firstClassDesc n "world-ic__2").isSome = true →
      ServerStatus.parse_from n = (do
        let c ← ServerCategory.parse_from n
        let a ← CharacterAvailability.parse_from n
        Except.ok (ServerStatus.PartialMaintenance c a)))
    ∧ (∀ n : HtmlNode, (firstClassDesc n "world-ic__1").isSome = false →
        (firstClassDesc n "world-ic__2").isSome = false →
        (firstClassDesc n "world-ic__3").isSome = true →
      ServerStatus.parse_from n = .ok .Maintenance)
    ∧ (∀ n : HtmlNode, (firstClassDesc n "world-ic__1").isSome = false →
        (firstClassDesc n "world-ic__2").isSome = false →
        (firstClassDesc n "world-ic__3").isSome = false →
      ServerStatus.parse_from n = .error (.NodeMissing "world-ic__3"))
    ∧ (∀ s : String, ((rustTrim s == "Standard") || (rustTrim s == "Preferred")
        || (rustTrim s == "Congested") || (rustTrim s == "New")) = false →
      ServerCategory.fromStr s = .error (.CategoryParseError (rustTrim s))) := by
  refine ⟨?_, ?_, ?_, ?_, ?_⟩
  · intro n h1
    rcases Option.isSome_iff_exists.mp h1 with ⟨x, hx⟩
    simp [ServerStatus.parse_from, hx, exceptOr]
  · intro n h1 h2
    cases hx1 : firstClassDesc n "world-ic__1" with
    | some x => rw [hx1] at h1; simp at h1
    | none =>
      rcases Option.isSome_iff_exists.mp h2 with ⟨y, hy⟩
      simp [ServerStatus.parse_from, hx1, hy, exceptOr]
  · intro n h1 h2 h3
    cases hx1 : firstClassDesc n "world-ic__1" with
    | some x => rw [hx1] at h1; simp at h1
    | none =>
      cases hx2 : firstClassDesc n "world-ic__2" with
      | some y => rw [hx2] at h2; simp at h2
      | none =>
        rcases Option.isSome_iff_exists.mp h3 with ⟨z, hz⟩
        simp [ServerStatus.parse_from, hx1, hx2, hz, exceptOr]
  · intro n h1 h2 h3
    cases hx1 : firstClassDesc n "world-ic__1" with
    | some x => rw [hx1] at h1; simp at h1
    | none =>
      cases hx2 : firstClassDesc n "world-ic__2" with
      | some y => rw [hx2] at h2; simp at h2
      | none =>
        cases hx3 : firstClassDesc n "world-ic__3" with
        | some z => rw [hx3] at h3; simp at h3
        | none => simp [ServerStatus.parse_from, hx1, hx2, hx3, exceptOr]
  · intro s h
    simp only [ServerCategory.fromStr]
    split <;> simp_all

/-- C7 witness: the four marker situations and an unknown category label,
evaluated on concrete nodes. -/
theorem c7_status_marker_order_witness :
    ServerStatus.parse_from c7n1 = (do
      let c ← ServerCategory.parse_from c7n1
      let a ← CharacterAvailability.parse_from c7n1
      Except.ok (ServerStatus.Online c a))
    ∧ ServerStatus.parse_from c7n2 = (do
      let c ← ServerCategory.parse_from c7n2
      let a ← CharacterAvailability.parse_from c7n2
      Except.ok (ServerStatus.PartialMaintenance c a))
    ∧ ServerStatus.parse_from c7n3 = .ok .Maintenance
    ∧ ServerStatus.parse_from c7n0 = .error (.NodeMissing "world-ic__3")
    ∧ ServerCategory.fromStr "Bogus" = .error (.CategoryParseError "Bogus") :=
  ⟨c7_status_marker_order.1 c7n1 (by decide),
   c7_status_marker_order.2.1 c7n2 (by decide) (by decide),
   c7_status_marker_order.2.2.1 c7n3 (by decide) (by decide) (by decide),
   c7_status_marker_order.2.2.2.1 c7n0 (by decide) (by decide) (by decide),
   (c7_status_marker_order.2.2.2.2 "Bogus" (by decide)).trans (by rfl)⟩

/-! ### C10: the CP branch is dead -/

/-- The loop never stores the CP variant: its branch condition repeats the
MP branch's condition, so it is only reached when that condition is false. -/
theorem paramLoop_not_cp (items : List HtmlNode) :
    ∀ hp sec hp2 sec2, optNotCP sec = true →
      paramLoop items hp sec = .ok (hp2, sec2) → optNotCP sec2 = true := by
  induction items with
  | nil =>
    intro hp sec hp2 sec2 hs h
    simp only [paramLoop, Except.ok.injEq, Prod.mk.injEq] at h
    obtain ⟨-, h2⟩ := h
    rw [← h2]
    exact hs
  | cons it rest ih =>
    intro hp sec hp2 sec2 hs h
    simp only [paramLoop] at h
    by_cases c1 : (nodeFind it (.pClass hpClassMark)).length = 1
    · rw [if_pos c1] at h
      cases hsv : spanValue it with
      | ok v => rw [hsv] at h; exact ih _ _ _ _ hs h
      | error e => rw [hsv] at h; cases h
    · rw [if_neg c1] at h
      by_cases c2 : (nodeFind it (.pClass mpClassMark)).length = 1
      · rw [if_pos c2] at h
        cases hsv : spanValue it with
        | ok v => rw [hsv] at h; exact ih hp (some (.MP v)) hp2 sec2 rfl h
        | error e => rw [hsv] at h; cases h
      · rw [if_neg c2] at h
        by_cases c3 : (nodeFind it (.pClass gpClassMark)).length = 1
        · rw [if_pos c3] at h
          cases hsv : spanValue it with
          | ok v => rw [hsv] at h; exact ih hp (some (.GP v)) hp2 sec2 rfl h
          | error e => rw [hsv] at h; cases h
        · rw [if_neg c3, if_neg c2] at h
          exact ih _ _ _ _ hs h

/-- C10: for every input document, `Profile::parse_char_param` never
returns the `SecondaryAttribute::CP` variant — the branch meant to detect
the CP marker tests the same marker class as the MP branch, so it is
unreachable. -/
theorem c10_no_cp (doc : List HtmlNode) :
    secNotCP (Profile.parse_char_param doc) = true := by
  simp only [Profile.parse_char_param]
  cases hb : ensureNodeD doc (.pClass "character__param") 0 "Class(character__param) (0)" with
  | error e => simp [hb, secNotCP, bind, Except.bind]
  | ok blk =>
    cases hl : paramLoop (nodeFind blk (.pName "li")) none none with
    | error e => simp [hb, hl, secNotCP, bind, Except.bind]
    | ok pr =>
      obtain ⟨hp, sec⟩ := pr
      have hcp : optNotCP sec = true := paramLoop_not_cp _ none none hp sec rfl hl
      cases hp with
      | none => simp [hb, hl, secNotCP, bind, Except.bind]
      | some h =>
        cases sec with
        | none => simp [hb, hl, secNotCP, bind, Except.bind]
        | some s =>
          cases s with
          | MP v => simp [hb, hl, secNotCP, bind, Except.bind]
          | GP v => simp [hb, hl, secNotCP, bind, Except.bind]
          | CP v => simp [optNotCP] at hcp

/-! ### C2: overwrite semantics of the parameter scan -/

/-- When every item processes without error, the loop returns exactly the
fold of the overwrite steps: each matching item replaces the slot, so the
last match wins. -/
theorem paramLoop_ok_eq (items : List HtmlNode) :
    ∀ hp0 sec0, (∀ it ∈ items, itemOk it = true) →
      paramLoop items hp0 sec0 = .ok (items.foldl hpStep hp0, items.foldl secStep sec0) := by
  induction items with
  | nil => intro hp0 sec0 _; rfl
  | cons it rest ih =>
    intro hp0 sec0 hok
    have hit : itemOk it = true := hok it (List.mem_cons_self it rest)
    have hrest : ∀ x ∈ rest, itemOk x = true := fun x hx => hok x (List.mem_cons_of_mem it hx)
    simp only [paramLoop, List.foldl_cons]
    by_cases c1 : (nodeFind it (.pClass hpClassMark)).length = 1
    · have hm : hpMark it = true := by simp [hpMark, c1]
      rw [if_pos c1]
      have hsv : ∃ v, spanValue it = .ok v := by
        simp only [itemOk, hm, Bool.true_or, Bool.not_true, Bool.false_or] at hit
        cases hsv2 : spanValue it with
        | ok v => exact ⟨v, rfl⟩
        | error e => rw [hsv2] at hit; simp at hit
      obtain ⟨v, hv⟩ := hsv
      have h1 : hpStep hp0 it = some v := by simp [hpStep, hm, spanNat, hv]
      have h2 : secStep sec0 it = sec0 := by simp [secStep, hm]
      rw [hv]
      exact (ih (some v) sec0 hrest).trans (by rw [h1, h2])
    · have hm : hpMark it = false := by simp [hpMark, c1]
      rw [if_neg c1]
      by_cases c2 : (nodeFind it (.pClass mpClassMark)).length = 1
      · have hm2 : mpMark it = true := by simp [mpMark, c2]
        rw [if_pos c2]
        have hsv : ∃ v, spanValue it = .ok v := by
          simp only [itemOk, hm, hm2, Bool.true_or, Bool.or_true, Bool.false_or,
            Bool.not_true] at hit
          cases hsv2 : spanValue it with
          | ok v => exact ⟨v, rfl⟩
          | error e => rw [hsv2] at hit; simp at hit
        obtain ⟨v, hv⟩ := hsv
        have h1 : hpStep hp0 it = hp0 := by simp [hpStep, hm]
        have h2 : secStep sec0 it = some (.MP v) := by simp [secStep, hm, hm2, spanNat, hv]
        rw [hv]
        exact (ih hp0 (some (.MP v)) hrest).trans (by rw [h1, h2])
      · have hm2 : mpMark it = false := by simp [mpMark, c2]
        rw [if_neg c2]
        by_cases c3 : (nodeFind it (.pClass gpClassMark)).length = 1
        · have hm3 : gpMark it = true := by simp [gpMark, c3]
          rw [if_pos c3]
          have hsv : ∃ v, spanValue it = .ok v := by
            simp only [itemOk, hm, hm2, hm3, Bool.or_true, Bool.false_or,
              Bool.not_true] at hit
            cases hsv2 : spanValue it with
            | ok v => exact ⟨v, rfl⟩
            | error e => rw [hsv2] at hit; simp at hit
          obtain ⟨v, hv⟩ := hsv
          have h1 : hpStep hp0 it = hp0 := by simp [hpStep, hm]
          have h2 : secStep sec0 it = some (.GP v) := by simp [secStep, hm, hm2, hm3, spanNat, hv]
          rw [hv]
          exact (ih hp0 (some (.GP v)) hrest).trans (by rw [h1, h2])
        · have hm3 : gpMark it = false := by simp [gpMark, c3]
          rw [if_neg c3, if_neg c2]
          have h1 : hpStep hp0 it = hp0 := by simp [hpStep, hm]
          have h2 : secStep sec0 it = sec0 := by simp [secStep, hm, hm2, hm3]
          exact (ih hp0 sec0 hrest).trans (by rw [h1, h2])

/-- C2, amended: the LAST HP match and the LAST secondary-resource match
in document order determine the returned value (assignments overwrite the
slots, so it is not the first match as claimed); when no item matches the
HP marker the result is `NodeNotFound` (this error takes precedence), and
when some item matches HP but none matches a secondary marker the result
is `InvalidData`. -/
theorem c2_last_match_wins (doc : List HtmlNode) (block : HtmlNode)
    (hb : (docFind doc (.pClass "character__param")).get? 0 = some block)
    (hok : ∀ it ∈ nodeFind block (.pName "li"), itemOk it = true) :
    Profile.parse_char_param doc = lastMatchResult (nodeFind block (.pName "li")) := by
  simp only [Profile.parse_char_param, ensureNodeD, hb, bind, Except.bind]
  rw [paramLoop_ok_eq _ _ _ hok]
  cases hh : (nodeFind block (.pName "li")).foldl hpStep none with
  | none => simp [lastMatchResult, hh, bind, Except.bind]
  | some h =>
    cases hs : (nodeFind block (.pName "li")).foldl secStep none with
    | none => simp [lastMatchResult, hh, hs, bind, Except.bind]
    | some s => simp [lastMatchResult, hh, hs, bind, Except.bind]

/-- C2 counterexample: a parameters block with HP items valued 1 then 2
and MP items valued 5 then 7 returns `(2, MP 7)` — the last matches — not
`(1, MP 5)` as the first-match claim predicts. -/
theorem c2_first_match_counterexample :
    Profile.parse_char_param c2doc = .ok (2, .MP 7)
    ∧ decide (Profile.parse_char_param c2doc = .ok (1, .MP 5)) = false := by
  decide

/-- C2 witness: the amended theorem applied to the concrete block. -/
theorem c2_last_match_wins_witness :
    Profile.parse_char_param c2doc = lastMatchResult (nodeFind c2blockNode (.pName "li")) :=
  c2_last_match_wins c2doc c2blockNode rfl (by decide)

/-! ### C8: the InvalidData branches of parse_server are dead -/

/-- `str::split` always yields at least one piece, so `.next()` on a fresh
split iterator never returns `None`. -/
theorem splitCharList_ne_nil (sep : Char) (l : List Char) : splitCharList sep l ≠ [] := by
  cases l with
  | nil => simp [splitCharList]
  | cons c rest =>
    simp only [splitCharList]
    split
    · simp
    · split <;> simp

/-- String-level version of `splitCharList_ne_nil`. -/
theorem rustSplitChar_ne_nil (s : String) (sep : Char) : rustSplitChar s sep ≠ [] := by
  simp only [rustSplitChar, ne_eq, List.map_eq_nil_iff]
  exact splitCharList_ne_nil sep s.data

/-- C8, amended: splitting always yields a first token, so the two
`InvalidData` branches of `parse_server` are unreachable for every
document; an empty intermediate token is instead passed to
`Server::from_str`, which rejects it with a `ServerParseError`. -/
theorem c8_no_invalid_data (doc : List HtmlNode) :
    resultIsInvalidData (Profile.parse_server doc) = false := by
  simp only [Profile.parse_server, ensureNodeD]
  cases hg : (docFind doc (.pClass "frame__chara__world")).get? 0 with
  | none => simp [resultIsInvalidData, bind, Except.bind]
  | some node =>
    cases hl : rustSplitChar node.nodeText nbspChar with
    | nil => exact absurd hl (rustSplitChar_ne_nil _ _)
    | cons server restl =>
      cases hl2 : rustSplitChar server ' ' with
      | nil => exact absurd hl2 (rustSplitChar_ne_nil _ _)
      | cons w restw =>
        cases hf : Server.fromStr w with
        | ok v => simp [hl, hl2, hf, resultIsInvalidData, bind, Except.bind]
        | error e => simp [hl, hl2, hf, resultIsInvalidData, bind, Except.bind]

/-- C8 counterexample: a world text starting with the non-breaking space
produces an empty intermediate token, and the result is the
`ServerParseError` carrying the empty string — not `InvalidData` as
claimed. -/
theorem c8_empty_token_counterexample :
    Profile.parse_server c8doc = .error (.ServerParseError (.CategoryParseError ""))
    ∧ (rustSplitChar c8node.nodeText nbspChar).get? 0 = some ""
    ∧ resultIsInvalidData (Profile.parse_server c8doc) = false := by
  decide

/-! ### C3: the four-token branch never validates the race tokens -/

/-- C3, amended: a four-token race/clan/gender block is parsed with the
race unconditionally fixed to Au Ra — the first two tokens are ignored,
not validated — and tokens 3 and 4 parsed as clan and gender; no
`InvalidData` check of the first two tokens exists. -/
theorem c3_four_token_amended (doc : List HtmlNode) (block : HtmlNode)
    (a b c g : String) (clan : Clan) (gender : Gender)
    (hb : (docFind doc (.pClass "character-block__name")).get? 0 = some block)
    (ht : charTokens block.innerHtml = [a, b, c, g])
    (hc : Clan.fromStr c = .ok clan) (hg : Gender.fromStr g = .ok gender) :
    Profile.parse_char_info doc = .ok ⟨.Aura, clan, gender⟩ := by
  simp only [Profile.parse_char_info, ensureNodeD, hb, bind, Except.bind, ht, hc, hg]

/-- C3 counterexample: the block serializing to
`"Foo<br>Bar<br>Midlander<br>♂"` yields four tokens whose first two are
not `"Au" "Ra"`, yet `parse_char_info` returns a `CharInfo` with race
Au Ra instead of the claimed `InvalidData` error. -/
theorem c3_four_token_counterexample :
    charTokens c3block.innerHtml = ["Foo", "Bar", "Midlander", "♂"]
    ∧ Profile.parse_char_info c3doc = .ok ⟨.Aura, .Midlander, .Male⟩
    ∧ decide (Profile.parse_char_info c3doc =
        .error (.InvalidData "character block name")) = false := by
  decide

/-- C3 witness: the amended theorem evaluated on a second four-token
block. -/
theorem c3_four_token_amended_witness :
    Profile.parse_char_info c3wdoc = .ok ⟨.Aura, .Raen, .Female⟩ :=
  c3_four_token_amended c3wdoc c3wblock "Xx" "Yy" "Raen" "♀" .Raen .Female rfl (by decide)
    rfl rfl

/-! ### C6: advanced/base mirroring -/

/-- Lookup after inserting the same key. -/
theorem Classes.get_insert_self (m : Classes) (k : ClassType) (v : Option ClassInfo) :
    (m.insert k v).get k = some v := by
  simp [Classes.insert, Classes.get]

/-- Lookup after inserting a different key. -/
theorem Classes.get_insert_ne (m : Classes) (k k2 : ClassType) (v : Option ClassInfo)
    (h : k ≠ k2) : (m.insert k v).get k2 = m.get k2 := by
  simp [Classes.insert, Classes.get, h]

/-- A successful lookup comes from an entry of the list. -/
theorem Classes.get_mem (m : Classes) (c : ClassType) (v : Option ClassInfo) :
    m.get c = some v → (c, v) ∈ m := by
  induction m with
  | nil => intro h; simp [Classes.get] at h
  | cons p rest ih =>
    obtain ⟨k, v2⟩ := p
    intro h
    simp only [Classes.get] at h
    by_cases hk : k = c
    · rw [if_pos hk] at h
      obtain rfl := hk
      obtain rfl : v2 = v := by injection h
      exact List.mem_cons_self _ _
    · rw [if_neg hk] at h
      exact List.mem_cons_of_mem _ (ih h)

/-- The advanced/base pairing is irreflexive, maps into non-advanced
jobs, and is injective. -/
theorem advBase_facts : ∀ a b : ClassType, advBase a = some b →
    a ≠ b ∧ advBase b = none ∧ ∀ a2, advBase a2 = some b → a2 = a := by
  decide

/-- The nine-arm insertion `match` of the source, expressed through
`advBase`. -/
theorem insertClassRow_eq (m : Classes) (cls : ClassType) (v : Option ClassInfo) :
    insertClassRow m cls v =
      (match advBase cls with
        | some b => Classes.insert m b v
        | none => m).insert cls v := by
  cases cls <;> rfl

/-- Inserting any row other than a separate base-class row preserves
equality of the advanced and base entries. -/
theorem insertClassRow_get_eq (m : Classes) (cls : ClassType) (v : Option ClassInfo)
    (adv base : ClassType) (hab : advBase adv = some base) (hcls : cls ≠ base)
    (hm : m.get adv = m.get base) :
    (insertClassRow m cls v).get adv = (insertClassRow m cls v).get base := by
  have hne := (advBase_facts adv base hab).1
  rw [insertClassRow_eq]
  by_cases hca : cls = adv
  · subst hca
    rw [hab]
    rw [Classes.get_insert_self, Classes.get_insert_ne _ _ _ _ hne,
      Classes.get_insert_self]
  · cases hab2 : advBase cls with
    | none =>
      rw [Classes.get_insert_ne _ _ _ _ hca, Classes.get_insert_ne _ _ _ _ hcls]
      exact hm
    | some b2 =>
      have hbase2 : advBase b2 = none := (advBase_facts cls b2 hab2).2.1
      have hb2adv : b2 ≠ adv := by
        intro he
        rw [he] at hbase2
        rw [hbase2] at hab
        cases hab
      have hb2base : b2 ≠ base := by
        intro he
        rw [he] at hab2
        exact hca ((advBase_facts adv base hab).2.2 cls hab2)
      rw [Classes.get_insert_ne _ _ _ _ hca, Classes.get_insert_ne _ _ _ _ hcls,
        Classes.get_insert_ne _ _ _ _ hb2adv, Classes.get_insert_ne _ _ _ _ hb2base]
      exact hm

/-- The mirror invariant over a whole run of the row loop. -/
theorem parseClassItems_mirror (adv base : ClassType) (hab : advBase adv = some base) :
    ∀ (items : List HtmlNode) (m out : Classes),
      parseClassItems items m = .ok out →
      (∀ item ∈ items, rowIsClass item base = false) →
      m.get adv = m.get base → out.get adv = out.get base := by
  intro items
  induction items with
  | nil =>
    intro m out h _ hm
    simp only [parseClassItems, Except.ok.injEq] at h
    rw [← h]
    exact hm
  | cons item rest ih =>
    intro m out h hnb hm
    simp only [parseClassItems] at h
    cases hp : parseClassItem item with
    | error e => rw [hp] at h; cases h
    | ok pr =>
      obtain ⟨cls, v⟩ := pr
      rw [hp] at h
      have hcls : cls ≠ base := by
        have hx := hnb item (List.mem_cons_self item rest)
        simp [rowIsClass, hp] at hx
        exact hx
      exact ih _ _ h (fun x hx => hnb x (List.mem_cons_of_mem _ hx))
        (insertClassRow_get_eq m cls v adv base hab hcls hm)

/-- C6, amended: for each advanced/base pair, after a successful
`parse_classes` run, `classes.get(advanced) = classes.get(base)` holds
provided no separate row parsing to the base job appears among the scanned
items (real pages satisfy this; a later separate base row overwrites only
the base entry and breaks the equality). -/
theorem c6_mirror_amended (doc : List HtmlNode) (out : Classes) (adv base : ClassType)
    (hab : advBase adv = some base)
    (h : Profile.parse_classes doc = .ok out)
    (hnb : ∀ item ∈ classItems doc, rowIsClass item base = false) :
    out.get adv = out.get base :=
  parseClassItems_mirror adv base hab (classItems doc) Classes.new out h hnb rfl

/-- C6 counterexample: a document with a present, unlocked Paladin row
followed by a separate Gladiator row with different progress parses
successfully, yet `get(Paladin) ≠ get(Gladiator)`. -/
theorem c6_separate_base_row_counterexample :
    Profile.parse_classes c6doc = .ok c6map
    ∧ parseClassItem (classRow "Paladin" "50" "1 / 2") = .ok (.Paladin, some c6infoA)
    ∧ Classes.get c6map .Paladin = some (some c6infoA)
    ∧ Classes.get c6map .Gladiator = some (some c6infoB)
    ∧ decide (Classes.get c6map .Paladin = Classes.get c6map .Gladiator) = false := by
  decide

/-- C6 witness: the amended theorem applied to a one-row Paladin
document. -/
theorem c6_mirror_amended_witness :
    Classes.get c6wmap .Paladin = Classes.get c6wmap .Gladiator :=
  c6_mirror_amended c6wdoc c6wmap .Paladin .Gladiator rfl (by decide) (by decide)

/-! ### C4: the two experience fields are independent -/

/-- Per-row fact: when a row parses to an unlocked `ClassInfo` and its
experience text has `"--"` on both sides or on neither, the two xp fields
are present together or absent together. -/
theorem parseClassItem_xp (item : HtmlNode) (cls : ClassType) (i : ClassInfo)
    (hx : xpAligned item = true)
    (hp : parseClassItem item = .ok (cls, some i)) :
    (i.current_xp = none ↔ i.max_xp = none) := by
  simp only [parseClassItem, ensureNodeN, bind, Except.bind, List.get?_eq_getElem?] at hp
  cases h1 : (nodeFind item (.pClass "character__job__name"))[0]? with
  | none => simp [h1] at hp
  | some nameNode =>
  simp only [h1] at hp
  cases h2 : (nodeFind item (.pClass "character__job__level"))[0]? with
  | none => simp [h2] at hp
  | some levelNode =>
  simp only [h2] at hp
  by_cases hlev : levelNode.nodeText = "-"
  · -- locked row: classinfo is none, contradicting `some i`
    rw [if_pos hlev] at hp
    cases h3 : (rustSplitSlash nameNode.nodeText)[0]? with
    | none => simp [h3] at hp
    | some nm =>
    simp only [h3] at hp
    cases h4 : ClassType.fromStr nm with
    | error e => simp [h4] at hp
    | ok c2 => simp [h4] at hp
  · rw [if_neg hlev] at hp
    cases h5 : (nodeFind item (.pClass "character__job__exp"))[0]? with
    | none => simp [h5] at hp
    | some expNode =>
    simp only [h5] at hp
    have hxe : (((rustSplitSlash expNode.nodeText)[0]? == some "--")
        == ((rustSplitSlash expNode.nodeText)[1]? == some "--")) = true := by
      simp only [xpAligned, List.get?_eq_getElem?, h5] at hx
      exact hx
    cases h6 : (rustSplitSlash expNode.nodeText)[0]? with
    | none => simp [h6] at hp
    | some cur =>
    simp only [h6] at hp
    cases h7 : (rustSplitSlash expNode.nodeText)[1]? with
    | none => simp [h7] at hp
    | some mx =>
    simp only [h7] at hp
    cases h8 : rustParseU32 levelNode.nodeText with
    | none => simp [h8] at hp
    | some lvl =>
    simp only [h8] at hp
    rw [h6, h7] at hxe
    by_cases hc : cur = "--"
    · by_cases hm : mx = "--"
      · rw [if_pos hc, if_pos hm] at hp
        cases h9 : (rustSplitSlash nameNode.nodeText)[0]? with
        | none => simp [h9] at hp
        | some nm =>
        simp only [h9] at hp
        cases h10 : ClassType.fromStr nm with
        | error e => simp [h10] at hp
        | ok c2 =>
        simp only [h10, Except.ok.injEq, Prod.mk.injEq, Option.some.injEq] at hp
        rw [← hp.2]
      · rw [hc] at hxe
        simp [hm] at hxe
    · by_cases hm : mx = "--"
      · rw [hm] at hxe
        simp [hc] at hxe
      · rw [if_neg hc] at hp
        cases h9 : rustParseU32 (stripCommas cur) with
        | none => simp [h9] at hp
        | some cv =>
        simp only [h9] at hp
        rw [if_neg hm] at hp
        cases h10 : rustParseU32 (stripCommas mx) with
        | none => simp [h10] at hp
        | some mv =>
        simp only [h10] at hp
        cases h11 : (rustSplitSlash nameNode.nodeText)[0]? with
        | none => simp [h11] at hp
        | some nm =>
        simp only [h11] at hp
        cases h12 : ClassType.fromStr nm with
        | error e => simp [h12] at hp
        | ok c2 =>
        simp only [h12, Except.ok.injEq, Prod.mk.injEq, Option.some.injEq] at hp
        rw [← hp.2]
        simp

/-- The both-or-none property over a whole run of the row loop. -/
theorem parseClassItems_xp (items : List HtmlNode) :
    ∀ m out, parseClassItems items m = .ok out →
      (∀ item ∈ items, xpAligned item = true) →
      (∀ p ∈ m, ∀ i, p.2 = some i → (i.current_xp = none ↔ i.max_xp = none)) →
      ∀ p ∈ out, ∀ i, p.2 = some i → (i.current_xp = none ↔ i.max_xp = none) := by
  induction items with
  | nil =>
    intro m out h _ hm
    simp only [parseClassItems, Except.ok.injEq] at h
    rw [← h]
    exact hm
  | cons item rest ih =>
    intro m out h ha hm
    simp only [parseClassItems] at h
    cases hp : parseClassItem item with
    | error e => rw [hp] at h; cases h
    | ok pr =>
      obtain ⟨cls, v⟩ := pr
      rw [hp] at h
      have hv : ∀ i, v = some i → (i.current_xp = none ↔ i.max_xp = none) := by
        intro i hi
        exact parseClassItem_xp item cls i (ha item (List.mem_cons_self _ _)) (hi ▸ hp)
      apply ih _ _ h (fun x hx => ha x (List.mem_cons_of_mem _ hx))
      intro p hpmem i hpi
      rw [insertClassRow_eq] at hpmem
      simp only [Classes.insert] at hpmem
      rcases List.mem_cons.mp hpmem with heq | hmem2
      · rw [heq] at hpi
        exact hv i hpi
      · cases hab : advBase cls with
        | none =>
          rw [hab] at hmem2
          exact hm p hmem2 i hpi
        | some b =>
          rw [hab] at hmem2
          simp only [Classes.insert] at hmem2
          rcases List.mem_cons.mp hmem2 with heq2 | hmem3
          · rw [heq2] at hpi
            exact hv i hpi
          · exact hm p hmem3 i hpi

/-- C4, amended: each xp field is `none` exactly when its own token reads
`"--"`, independently of the other; the claimed both-or-none invariant
holds for every run in which each scanned row's experience text has
`"--"` on both sides of `" / "` or on neither. -/
theorem c4_xp_amended (doc : List HtmlNode) (out : Classes)
    (h : Profile.parse_classes doc = .ok out)
    (ha : ∀ item ∈ classItems doc, xpAligned item = true) :
    ∀ c i, out.get c = some (some i) → (i.current_xp = none ↔ i.max_xp = none) := by
  intro c i hg
  exact parseClassItems_xp (classItems doc) Classes.new out h ha
    (by intro p hpm; simp [Classes.new] at hpm) (c, some i)
    (Classes.get_mem out c (some i) hg) i rfl

/-- C4 counterexample: a successfully parsed row whose experience text is
`"-- / 123"` produces a `ClassInfo` with `current_xp = none` but
`max_xp = some 123` — exactly one field present. -/
theorem c4_xp_counterexample :
    Profile.parse_classes c4doc = .ok c4map
    ∧ Classes.get c4map .Paladin = some (some c4info)
    ∧ c4info.current_xp = none
    ∧ c4info.max_xp = some 123 := by
  decide

/-- C4 witness: the amended theorem applied to a document whose row reads
`"10 / 20"`. -/
theorem c4_xp_amended_witness :
    (c4winfo.current_xp = none ↔ c4winfo.max_xp = none) :=
  c4_xp_amended c4wdoc c4wmap (by decide) (by decide) .Gladiator c4winfo (by decide)

/-! ### C9: the search extractor is total and lenient -/

/-- An entry parses exactly when it is well-formed in the spec's sense
(parseable digit run in the link attribute, name node, world node). -/
theorem parseSearchEntry_isSome (e : HtmlNode) :
    (parseSearchEntry e).isSome = searchEntryWellFormed e := by
  cases h1 : e.attr "href" with
  | none => simp [parseSearchEntry, searchEntryWellFormed, h1]
  | some href =>
  cases h2 : rustParseU32 ⟨(href.data.dropWhile (fun ch => !ch.isDigit)).takeWhile
      (fun ch => ch.isDigit)⟩ with
  | none => simp [parseSearchEntry, searchEntryWellFormed, h1, h2]
  | some uid =>
  cases h3 : nodeFind e (.pClass "entry__name") with
  | nil => simp [parseSearchEntry, searchEntryWellFormed, h1, h2, h3]
  | cons a as =>
  cases h4 : nodeFind e (.pClass "entry__world") with
  | nil => simp [parseSearchEntry, searchEntryWellFormed, h1, h2, h3, h4]
  | cons b bs => simp [parseSearchEntry, searchEntryWellFormed, h1, h2, h3, h4]

/-- C9: `SearchBuilder::parse_profile` never returns an error — it is the
`filter_map` of the per-entry parse over all entry nodes — every malformed
entry is silently dropped, and every well-formed entry's result appears in
the returned list. -/
theorem c9_search_lenient (doc : List HtmlNode) :
    SearchBuilder.parse_profile doc =
      (docFind doc (.pClass "entry__link")).filterMap parseSearchEntry
    ∧ ∀ e ∈ docFind doc (.pClass "entry__link"),
        (searchEntryWellFormed e = false → parseSearchEntry e = none)
        ∧ (searchEntryWellFormed e = true →
            ∃ r, parseSearchEntry e = some r ∧ r ∈ SearchBuilder.parse_profile doc) := by
  refine ⟨rfl, ?_⟩
  intro e he
  constructor
  · intro hwf
    have hs := parseSearchEntry_isSome e
    rw [hwf] at hs
    cases hpe : parseSearchEntry e with
    | none => rfl
    | some r => rw [hpe] at hs; simp at hs
  · intro hwf
    have hs := parseSearchEntry_isSome e
    rw [hwf] at hs
    cases hpe : parseSearchEntry e with
    | none => rw [hpe] at hs; simp at hs
    | some r => exact ⟨r, rfl, List.mem_filterMap.mpr ⟨e, he, hpe⟩⟩

/-- C9 witness: a document with one well-formed and one malformed entry —
the malformed one is dropped, the well-formed one is returned. -/
theorem c9_search_lenient_witness :
    parseSearchEntry c9bad = none
    ∧ (∃ r, parseSearchEntry c9good = some r ∧ r ∈ SearchBuilder.parse_profile c9doc) :=
  ⟨((c9_search_lenient c9doc).2 c9bad
      (by rw [show docFind c9doc (.pClass "entry__link") = [c9good, c9bad] from rfl]
          exact List.mem_cons_of_mem _ (List.mem_cons_self _ _))).1 (by decide),
   ((c9_search_lenient c9doc).2 c9good
      (by rw [show docFind c9doc (.pClass "entry__link") = [c9good, c9bad] from rfl]
          exact List.mem_cons_self _ _)).2 (by decide)⟩

/-! ### C1: the bracket strip can panic -/

/-- C1: evaluating the embedded `parse_node`/`parse_data` at a row whose
"Server [Datacenter]" text is `"Siren x"` reaches the unguarded byte slice
`datacenter[1..datacenter.len() - 1]` with a one-byte token: `len - 1 = 0`
and the slice `[1..0]` is invalid, so the code panics (`crashed`) instead
of returning a `FreeCompanyParseError` value. -/
theorem c1_bracket_strip_crashes :
    FreeCompanyLeaderboardQuery.parse_node c1row = RResult.crashed
    ∧ FreeCompanyLeaderboardQuery.parse_data c1doc = RResult.crashed
    ∧ usizeSub ("x".data.length) 1 = 0
    ∧ strSlice "x" 1 (usizeSub ("x".data.length) 1) = none := by
  decide

/-- C5 witness: the round trip evaluated at the renamed server. -/
theorem c5_catalog_round_trip_amended_witness :
    Server.fromStr (Server.display Server.Anima) = .ok Server.Anima :=
  c5_catalog_round_trip_amended.1 Server.Anima

/-- C8 witness: the amended theorem evaluated at the concrete document. -/
theorem c8_no_invalid_data_witness :
    resultIsInvalidData (Profile.parse_server c8doc) = false :=
  c8_no_invalid_data c8doc

/-- C10 witness: the theorem evaluated at the empty document. -/
theorem c10_no_cp_witness : secNotCP (Profile.parse_char_param []) = true :=
  c10_no_cp []
